import Mathlib

/-!
Verification of the autoform schema-driven form engine.

This file embeds, in Lean, the parts of the repository that the analyzed
properties are about:

* the condition evaluator (`evaluateCondition` / `getNestedValue` from the
  bundled `useFieldRenderer` module),
* the schema parser (`validateField`, `parseSchema`, `getDefaultValues` from
  `packages/core/src/schema/parser.ts`),
* the array-field append/remove handlers (`handleAppend`, `handleRemove`,
  `getDefaultForType` from the bundled `ArrayFieldInternal` component),
* the asynchronous data-source engine (`fetchData`, `onSearch`, the module
  level `cache` and `inFlightRequests` maps from
  `packages/core/src/hooks/useDataSource.ts`), modelled as a state machine
  whose steps are the synchronous turns of the single-threaded JS runtime.

JavaScript runtime values are modelled by the inductive `Value`; numbers are
modelled as integers (no claim analyzed here depends on floating point or on
`NaN`), and reference identity of objects/arrays is modelled conservatively:
two composite values are never `===`-equal, which matches the source's usage
where compared composites come from distinct allocations (schema literals vs
form state).
-/

/-- JavaScript runtime values as they flow through the form engine. -/
inductive Value where
  | undef
  | null
  | bool (b : Bool)
  | num (n : Int)
  | str (s : String)
  | arr (elems : List Value)
  | obj (props : List (String × Value))

/-- JavaScript strict equality `===` on `Value`. Primitives compare by
content; composite values (`arr`, `obj`) compare by reference, which we model
as never equal (the compared composites in the source are distinct
allocations). -/
def Value.strictEq : Value → Value → Bool
  | .undef, .undef => true
  | .null, .null => true
  | .bool a, .bool b => a == b
  | .num a, .num b => a == b
  | .str a, .str b => a == b
  | _, _ => false

/-- JS `path.split(".")` with a one-character separator, computed over the
character list (`String.splitOn` itself is not kernel-reducible). The empty
string splits to `[""]`, exactly as in JS. -/
def splitDotChars : List Char → List String
  | [] => [""]
  | c :: rest =>
    let r := splitDotChars rest
    if c = '.' then "" :: r
    else (String.mk [c] ++ r.headD "") :: r.tail

/-- JS `path.split(".")` on a `String`. -/
def splitDot (s : String) : List String := splitDotChars s.data

/-- Own-property lookup on a JS object property list (`key in acc` followed by
`acc[key]` for plain objects; prototype-chain properties are outside the value
model). -/
def lookupProp : List (String × Value) → String → Option Value
  | [], _ => none
  | (k, v) :: rest, key => if k = key then some v else lookupProp rest key

/-- Source `getNestedValue`: dotted-path traversal over the form-value
snapshot; any step through a non-object (or a missing key) yields
`undefined`. -/
def getNestedValue (o : Value) (path : String) : Value :=
  (splitDot path).foldl
    (fun acc key =>
      match acc with
      | .obj props =>
        match lookupProp props key with
        | some v => v
        | none => .undef
      | _ => .undef)
    o

/-- Condition attached to a field: `{when, operator, value}`. An absent
`value` in the source is `undefined`, i.e. `Value.undef`. -/
structure ConditionConfig where
  whenPath : String
  operator : String
  value : Value

/-- JS `Array.prototype.includes` membership (SameValueZero, which coincides
with `strictEq` on the modelled values). -/
def jsIncludes (xs : List Value) (v : Value) : Bool :=
  xs.any (fun e => e.strictEq v)

/-- The numeric-comparison pattern the source repeats for gt/gte/lt/lte:
`typeof fieldValue === "number" && typeof value === "number" && cmp`. -/
def numCmp (f : Int → Int → Bool) : Value → Value → Bool
  | .num a, .num b => f a b
  | _, _ => false

/-- Source `evaluateCondition` from the field renderer: visibility rule
applied to the full form-value snapshot. A missing condition and an unknown
operator both evaluate to visible. -/
def evaluateCondition : Option ConditionConfig → Value → Bool
  | none, _ => true
  | some c, formValues =>
    let fieldValue := getNestedValue formValues c.whenPath
    match c.operator with
    | "eq" => fieldValue.strictEq c.value
    | "neq" => !(fieldValue.strictEq c.value)
    | "gt" => numCmp (fun a b => decide (a > b)) fieldValue c.value
    | "gte" => numCmp (fun a b => decide (a ≥ b)) fieldValue c.value
    | "lt" => numCmp (fun a b => decide (a < b)) fieldValue c.value
    | "lte" => numCmp (fun a b => decide (a ≤ b)) fieldValue c.value
    | "in" =>
      match c.value with
      | .arr xs => jsIncludes xs fieldValue
      | _ => false
    | "notIn" =>
      match c.value with
      | .arr xs => !(jsIncludes xs fieldValue)
      | _ => false
    | "exists" =>
      !(fieldValue.strictEq .undef) && !(fieldValue.strictEq .null) &&
        !(fieldValue.strictEq (.str ""))
    | "notExists" =>
      fieldValue.strictEq .undef || fieldValue.strictEq .null ||
        fieldValue.strictEq (.str "")
    | _ => true

/-! ### Association-list maps

JS `Map` objects and plain-object accumulators, modelled as association
lists: `assocInsert` replaces an existing binding in place or appends
(JS `map.set(k, v)` / `obj[k] = v`), `assocErase` removes the binding
(`map.delete(k)`). -/

def assocLookup {κ α : Type} [DecidableEq κ] : List (κ × α) → κ → Option α
  | [], _ => none
  | (k, v) :: rest, key => if k = key then some v else assocLookup rest key

def assocInsert {κ α : Type} [DecidableEq κ] : List (κ × α) → κ → α → List (κ × α)
  | [], k, v => [(k, v)]
  | (k', v') :: rest, k, v =>
    if k' = k then (k, v) :: rest else (k', v') :: assocInsert rest k v

def assocErase {κ α : Type} [DecidableEq κ] : List (κ × α) → κ → List (κ × α)
  | [], _ => []
  | (k', v') :: rest, k => if k' = k then rest else (k', v') :: assocErase rest k

/-! ### Schema model (`packages/core/src/types/schema.ts`) -/

/-- A select option as handed to renderers. The engine never inspects option
contents, so options are modelled opaquely as strings. -/
abbrev FieldOption := String

/-- JS falsiness of an optional string property: absent (`undefined`) or the
empty string. -/
def jsFalsyOptStr : Option String → Bool
  | none => true
  | some s => s = ""

/-- JS truthiness of an optional string property. -/
def jsTruthyOptStr (o : Option String) : Bool := !(jsFalsyOptStr o)

/-- Non-recursive part of a field definition. `type` and `itemType` are kept
as strings since the parser validates them against `VALID_FIELD_TYPES` at
runtime; absent optional properties are `none`. -/
structure FieldCore where
  name : String
  type : String
  options : Option (List FieldOption)
  dataSourceKey : Option String
  dependsOn : Option (List String)
  condition : Option ConditionConfig
  defaultValue : Option Value
  itemType : Option String
  minItems : Option Nat
  maxItems : Option Nat

/-- A field definition: the core plus the recursive `fields` (object
children) and `itemFields` (array item fields) lists. An absent list is
modelled as `[]`, which the analyzed code treats identically (`itemDefinition`
and presentation-only properties such as `label` are not used by the analyzed
operations and are omitted). -/
inductive FieldDefinition where
  | mk (core : FieldCore) (fields : List FieldDefinition)
      (itemFields : List FieldDefinition)

def FieldDefinition.core : FieldDefinition → FieldCore
  | .mk c _ _ => c

def FieldDefinition.fields : FieldDefinition → List FieldDefinition
  | .mk _ fs _ => fs

def FieldDefinition.itemFields : FieldDefinition → List FieldDefinition
  | .mk _ _ ifs => ifs

def FieldDefinition.name (f : FieldDefinition) : String := f.core.name

/-- Schema root: `{fields: [...]}` (title/description omitted as unused). -/
structure AutoFormSchema where
  fields : List FieldDefinition

/-! ### Schema parser (`packages/core/src/schema/parser.ts`) -/

def VALID_FIELD_TYPES : List String :=
  ["text", "email", "password", "number", "textarea", "select", "multiselect",
   "autocomplete", "checkbox", "radio", "switch", "date", "datetime", "time",
   "file", "object", "array", "hidden"]

/-- `SchemaValidationError`: message plus the path it is qualified with. -/
structure SchemaValidationError where
  message : String
  path : String

/-! Source `validateField`: sequential runtime checks on one field
definition, throwing a path-qualified `SchemaValidationError` at the first
violation. The `dependsOn` must-be-an-array check is vacuous in this model
(`dependsOn` is typed as a list) and the name's `typeof` check collapses to
the falsiness check. `validateFieldList` is the source's `for` loop over a
list of child definitions. -/

mutual

def validateField : FieldDefinition → String → Except SchemaValidationError Unit
  | .mk c fs ifs, path => do
    if c.name = "" then
      throw ⟨"Field must have a valid \"name\" string", path⟩
    if !(VALID_FIELD_TYPES.contains c.type) then
      throw ⟨"Field must have a valid \"type\". Got \"" ++ c.type ++
        "\", expected one of: " ++ String.intercalate ", " VALID_FIELD_TYPES,
        path ++ "." ++ c.name⟩
    if c.type = "object" then
      if fs.isEmpty then
        throw ⟨"Object type field must have a non-empty \"fields\" array",
          path ++ "." ++ c.name⟩
      validateFieldList fs (path ++ "." ++ c.name)
    if c.type = "array" then
      if jsFalsyOptStr c.itemType then
        throw ⟨"Array type field must have \"itemType\" defined",
          path ++ "." ++ c.name⟩
      if c.itemType = some "object" then
        if ifs.isEmpty then
          throw ⟨"Array field with itemType \"object\" must have a non-empty \"itemFields\" array",
            path ++ "." ++ c.name⟩
        validateFieldList ifs (path ++ "." ++ c.name ++ "[]")
    if c.type = "select" ∨ c.type = "multiselect" ∨ c.type = "radio" then
      if c.options.isNone && jsFalsyOptStr c.dataSourceKey then
        throw ⟨"Field type \"" ++ c.type ++
          "\" must have either \"options\" array or \"dataSourceKey\"",
          path ++ "." ++ c.name⟩
    match c.condition with
    | some cond =>
      if cond.whenPath = "" then
        throw ⟨"Condition must have a valid \"when\" field name",
          path ++ "." ++ c.name ++ ".condition"⟩
      if cond.operator = "" then
        throw ⟨"Condition must have an \"operator\"",
          path ++ "." ++ c.name ++ ".condition"⟩
    | none => pure ()

def validateFieldList : List FieldDefinition → String → Except SchemaValidationError Unit
  | [], _ => pure ()
  | f :: rest, path => do
    validateField f path
    validateFieldList rest path

end

/-- Source `collectFieldPaths`: every dotted path of the schema tree,
descending into object children only (array item paths are dynamic). -/
def collectFieldPaths : List FieldDefinition → String → List String
  | [], _ => []
  | .mk c fs _ :: rest, basePath =>
    let fieldPath := if basePath = "" then c.name else basePath ++ "." ++ c.name
    (fieldPath :: (if c.type = "object" then collectFieldPaths fs fieldPath else []))
      ++ collectFieldPaths rest basePath

/-- Source `hasAsyncFields`: any field carries a truthy `dataSourceKey`,
descending into object children and array item fields. -/
def hasAsyncFields : List FieldDefinition → Bool
  | [] => false
  | .mk c fs ifs :: rest =>
    if jsTruthyOptStr c.dataSourceKey then true
    else if c.type = "object" ∧ hasAsyncFields fs = true then true
    else if c.type = "array" ∧ hasAsyncFields ifs = true then true
    else hasAsyncFields rest

/-- Source `hasConditionalFields`. -/
def hasConditionalFields : List FieldDefinition → Bool
  | [] => false
  | .mk c fs ifs :: rest =>
    if c.condition.isSome then true
    else if c.type = "object" ∧ hasConditionalFields fs = true then true
    else if c.type = "array" ∧ hasConditionalFields ifs = true then true
    else hasConditionalFields rest

/-- Source `hasArrayFields`. -/
def hasArrayFields : List FieldDefinition → Bool
  | [] => false
  | .mk c fs _ :: rest =>
    if c.type = "array" then true
    else if c.type = "object" ∧ hasArrayFields fs = true then true
    else hasArrayFields rest

/-- Source `hasNestedObjects` (top level only, as in the source). -/
def hasNestedObjects : List FieldDefinition → Bool
  | [] => false
  | .mk c _ _ :: rest => if c.type = "object" then true else hasNestedObjects rest

/-- Result of `parseSchema`. -/
structure ParsedSchema where
  schema : AutoFormSchema
  fieldPaths : List String
  hasAsyncFields : Bool
  hasConditionalFields : Bool
  hasArrayFields : Bool
  hasNestedObjects : Bool

/-- The source's duplicate-name check over the root fields: a growing `Set`
of seen names, erroring on the first repeat. -/
def checkRootDuplicates : List String → List FieldDefinition → Except SchemaValidationError Unit
  | _, [] => pure ()
  | seen, f :: rest =>
    if f.name ∈ seen then
      .error ⟨"Duplicate field name \"" ++ f.name ++ "\" at root level", "root"⟩
    else checkRootDuplicates (f.name :: seen) rest

/-- Source `parseSchema`: structural checks (the is-an-object and
has-a-fields-array checks hold by typing in this model), per-field
validation, the root-level duplicate-name check, then the derived
introspection flags. -/
def parseSchema (schema : AutoFormSchema) : Except SchemaValidationError ParsedSchema := do
  if schema.fields.isEmpty then
    throw ⟨"Schema must have at least one field", "root.fields"⟩
  validateFieldList schema.fields "root"
  checkRootDuplicates [] schema.fields
  pure ⟨schema, collectFieldPaths schema.fields "",
    hasAsyncFields schema.fields, hasConditionalFields schema.fields,
    hasArrayFields schema.fields, hasNestedObjects schema.fields⟩

/-! Source `getDefaultValues`'s inner `processFields`: accumulates
`target[name] = ...` assignments into an association list.
`processFieldStep` is the body of the source's `for` loop for one field;
`processFields` folds it over a definition list. -/

mutual

def processFieldStep : FieldCore → List FieldDefinition → List (String × Value) → List (String × Value)
  | c, fs, target =>
    match c.defaultValue with
    | some v => assocInsert target c.name v
    | none =>
      if c.type = "object" then
        let nested := processFields fs []
        if nested.isEmpty then target else assocInsert target c.name (.obj nested)
      else if c.type = "array" then assocInsert target c.name (.arr [])
      else if c.type = "checkbox" ∨ c.type = "switch" then
        assocInsert target c.name (.bool false)
      else target

def processFields : List FieldDefinition → List (String × Value) → List (String × Value)
  | [], target => target
  | .mk c fs _ :: rest, target => processFields rest (processFieldStep c fs target)

end

/-- Source `getDefaultValues`. -/
def getDefaultValues (schema : AutoFormSchema) : List (String × Value) :=
  processFields schema.fields []

/-- The default that `getDefaultValues` contributes for one field, stated
per field: the explicit `defaultValue` when present; else the empty array
for arrays, `false` for checkbox/switch, the synthesized child-defaults
object for object fields when that object is non-empty, and nothing at all
otherwise. -/
def defaultValueSpec : FieldDefinition → Option Value
  | .mk c fs _ =>
    match c.defaultValue with
    | some v => some v
    | none =>
      if c.type = "object" then
        let nested := processFields fs []
        if nested.isEmpty then none else some (.obj nested)
      else if c.type = "array" then some (.arr [])
      else if c.type = "checkbox" ∨ c.type = "switch" then some (.bool false)
      else none

/-! ### Array field handlers (bundled `ArrayFieldInternal`) -/

/-- Source `getDefaultForType`: the type-appropriate zero value for a
primitive array item (an absent `itemType` falls into the default case). -/
def getDefaultForType : Option String → Value
  | some "number" => .num 0
  | some "checkbox" => .bool false
  | some "switch" => .bool false
  | some "multiselect" => .arr []
  | _ => .str ""

/-- The loop in `handleAppend` synthesizing a default object item: each item
field with a defined `defaultValue` contributes its default; the rest are
omitted. -/
def defaultItemFrom : List FieldDefinition → List (String × Value) → List (String × Value)
  | [], acc => acc
  | .mk c _ _ :: rest, acc =>
    defaultItemFrom rest
      (match c.defaultValue with
       | some v => assocInsert acc c.name v
       | none => acc)

/-- The bound check `field.maxItems !== undefined && fields.length >= field.maxItems`. -/
def maxReached : Option Nat → Nat → Bool
  | some m, len => m ≤ len
  | none, _ => false

/-- The bound check `field.minItems !== undefined && fields.length <= field.minItems`. -/
def minReached : Option Nat → Nat → Bool
  | some m, len => len ≤ m
  | none, _ => false

/-- Source `handleAppend`: a soft no-op at the max bound; otherwise appends
the given value or a synthesized default (`value ?? defaultItem` /
`value ?? getDefaultForType(itemType)`). The `itemFields` truthiness guard
becomes non-emptiness under the absent-list-as-`[]` convention. -/
def handleAppend (f : FieldDefinition) (items : List Value) (value : Option Value) : List Value :=
  match f with
  | .mk c _ ifs =>
    if maxReached c.maxItems items.length then items
    else if c.itemType = some "object" ∧ ifs.isEmpty = false then
      items ++ [value.getD (.obj (defaultItemFrom ifs []))]
    else
      items ++ [value.getD (getDefaultForType c.itemType)]

/-- Source `handleRemove`: a soft no-op at the min bound; otherwise removes
the item at `index`. -/
def handleRemove (f : FieldDefinition) (items : List Value) (index : Nat) : List Value :=
  match f with
  | .mk c _ _ =>
    if minReached c.minItems items.length then items
    else items.eraseIdx index

/-! ### Data-source cache and fetch engine (`packages/core/src/hooks/useDataSource.ts`)

The hook is modelled as a state machine over `EngineState`. One step is one
synchronous turn of the single-threaded JS runtime:

* `fetchData s i q` — the body of the hook's `fetchData` callback up to its
  suspension point: cache check, in-flight attach, `lastFetchKeyRef` de-dup
  guard, abort of the previous controller, loading state, the `config.fetch`
  invocation and the in-flight registration all happen in this one turn;
* `settleSuccess s fid opts` — the turn in which a pending fetch's promise
  resolves with transformed options `opts`: cache write-through, the owner's
  and every attached waiter's `setState`, then the `finally` block;
* `settleError s fid msg` — the promise rejects with a non-abort error: the
  owner records the error (after routing it through `onError`, which holds no
  engine state), waiters swallow it, the `finally` block runs;
* `settleAbort s fid` — the promise rejects with an `AbortError`, possible
  only once the request was aborted and the underlying fetch honors its
  signal; the owner's catch returns early and only the `finally` block runs;
* `onSearch s i q` — the debounced search handler: stores the query and
  resets the timer, discarding any pending one;
* `fireTimer s i` — the debounce timer callback; a no-op before expiry;
* `advanceTo s t` — wall-clock time passing between turns.

`config.fetch` invocations are recorded in `fetchCount` and `fetchLog`;
`transform` is absorbed into the options a settle step carries; the optional
custom `cacheKey` function is not modelled — keys always come from the
hook's default `generateCacheKey`. A fetch that ignores its abort signal is
simply a pending fetch that settles through `settleSuccess`/`settleError`
despite `aborted = true`. -/

def DEFAULT_STALE_TIME : Nat := 30000

def DEFAULT_DEBOUNCE_MS : Nat := 300

/-- JS `searchQuery || ""`. -/
def jsOrEmpty : Option String → String
  | none => ""
  | some s => s

/-- Source `generateCacheKey`: `sourceKey:deps:query` where `deps` is the
memoized JSON serialization of the watched dependency values (the empty
string when the field has no dependencies — the hook's
`JSON.stringify`/`JSON.parse` round trip reproduces the memoized string). -/
def generateCacheKey (sourceKey deps query : String) : String :=
  sourceKey ++ ":" ++ deps ++ ":" ++ query

structure CacheEntry where
  data : List FieldOption
  timestamp : Nat
deriving DecidableEq

/-- A fetch whose promise has not settled: its identity, the cache key it was
started under, the hook instance owning its continuations, whether its
`AbortController` has been aborted, and the instances attached to it through
the in-flight map. -/
structure PendingFetch where
  id : Nat
  cacheKey : String
  owner : Nat
  aborted : Bool
  waiters : List Nat
deriving DecidableEq

/-- Per-hook-instance state: the props the hook closes over (`sourceKey`, the
memoized `dependenciesKey` serialization, `staleTime`/`debounceMs` from the
config, `enabled`), the refs (`abortControllerRef` as the id of the fetch it
controls, `lastFetchKeyRef`, `isFetchingRef`, `searchQueryRef`,
`debounceTimerRef` as query and expiry instant, `isMountedRef`) and the React
state (`options`/`isLoading`/`error`). -/
structure InstanceState where
  sourceKey : String
  depsKey : String
  staleTimeCfg : Option Nat
  debounceCfg : Option Nat
  enabled : Bool
  mounted : Bool
  options : List FieldOption
  isLoading : Bool
  error : Option String
  lastFetchKey : Option String
  currentFetch : Option Nat
  isFetching : Bool
  searchQueryRef : String
  debounceTimer : Option (String × Nat)
deriving DecidableEq

/-- `setState({options, isLoading, error})`, guarded by `isMountedRef`. -/
def InstanceState.setStateFull (i : InstanceState) (opts : List FieldOption)
    (loading : Bool) (err : Option String) : InstanceState :=
  if i.mounted then { i with options := opts, isLoading := loading, error := err } else i

/-- `setState(prev => ({...prev, isLoading: true, error: null}))`. -/
def InstanceState.setLoadingState (i : InstanceState) : InstanceState :=
  if i.mounted then { i with isLoading := true, error := none } else i

/-- `setState(prev => ({...prev, isLoading: false, error}))`. -/
def InstanceState.setErrorState (i : InstanceState) (msg : String) : InstanceState :=
  if i.mounted then { i with isLoading := false, error := some msg } else i

/-- Whole-engine state: the module-level `cache` and `inFlightRequests` maps
shared by every hook instance, the pending fetches, the instances, a fresh
promise id, the wall clock, and the record of `config.fetch` invocations. -/
structure EngineState where
  now : Nat
  cache : List (String × CacheEntry)
  inFlight : List (String × Nat)
  pending : List PendingFetch
  nextId : Nat
  fetchCount : Nat
  fetchLog : List (Nat × String × Option String)
  instances : List (Nat × InstanceState)
deriving DecidableEq

def setInst (s : EngineState) (i : Nat) (inst : InstanceState) : EngineState :=
  { s with instances := assocInsert s.instances i inst }

def applyState (s : EngineState) (i : Nat) (f : InstanceState → InstanceState) : EngineState :=
  match assocLookup s.instances i with
  | none => s
  | some inst => setInst s i (f inst)

/-- `abortControllerRef.current.abort()`: marks the controller's fetch
aborted while it is still pending (aborting a settled fetch does nothing). -/
def abortPending (ps : List PendingFetch) : Option Nat → List PendingFetch
  | none => ps
  | some fid => ps.map fun p => if p.id = fid then { p with aborted := true } else p

/-- A second resolution for the same cache key awaiting the existing
in-flight promise. -/
def attachWaiter (ps : List PendingFetch) (fid w : Nat) : List PendingFetch :=
  ps.map fun p => if p.id = fid then { p with waiters := p.waiters ++ [w] } else p

def findPending (ps : List PendingFetch) (fid : Nat) : Option PendingFetch :=
  ps.find? fun p => p.id == fid

def removePending (ps : List PendingFetch) (fid : Nat) : List PendingFetch :=
  ps.filter fun p => !(p.id == fid)

/-- The tail of `fetchData` after the cache produced no fresh entry: attach
to an existing in-flight request for this cache key; otherwise bail out on
the `lastFetchKeyRef` de-dup guard; otherwise start a new fetch — abort the
previous controller, set loading state, invoke `config.fetch` (recorded in
`fetchCount`/`fetchLog`) and register the promise in `inFlightRequests`. -/
def fetchDataMiss (s : EngineState) (instId : Nat) (inst : InstanceState)
    (cacheKey : String) (searchQuery : Option String) : EngineState :=
  match assocLookup s.inFlight cacheKey with
  | some fid => { s with pending := attachWaiter s.pending fid instId }
  | none =>
    if inst.lastFetchKey = some cacheKey then s
    else
      let fid := s.nextId
      let inst1 := { inst with lastFetchKey := some cacheKey, isFetching := true,
                               currentFetch := some fid }
      { s with
        pending := abortPending s.pending inst.currentFetch ++
          [⟨fid, cacheKey, instId, false, []⟩],
        inFlight := assocInsert s.inFlight cacheKey fid,
        nextId := fid + 1,
        fetchCount := s.fetchCount + 1,
        fetchLog := s.fetchLog ++ [(fid, cacheKey, searchQuery)],
        instances := assocInsert s.instances instId inst1.setLoadingState }

/-- Source `fetchData(searchQuery?)` run as one synchronous turn: no-op when
disabled; a fresh (`now - timestamp < staleTime`) cache entry is served
synchronously with `isLoading = false`; otherwise `fetchDataMiss`. -/
def fetchData (s : EngineState) (instId : Nat) (searchQuery : Option String) : EngineState :=
  match assocLookup s.instances instId with
  | none => s
  | some inst =>
    if inst.enabled = false then s
    else
      let staleTime := inst.staleTimeCfg.getD DEFAULT_STALE_TIME
      let cacheKey := generateCacheKey inst.sourceKey inst.depsKey (jsOrEmpty searchQuery)
      match assocLookup s.cache cacheKey with
      | some entry =>
        if s.now - entry.timestamp < staleTime then
          setInst s instId (inst.setStateFull entry.data false none)
        else fetchDataMiss s instId inst cacheKey searchQuery
      | none => fetchDataMiss s instId inst cacheKey searchQuery

/-- The `finally` block of a settling fetch plus the promise's removal from
the pending set: the in-flight entry for its cache key is deleted, the
owner's `lastFetchKeyRef` is cleared when it still equals this fetch's cache
key, and `isFetchingRef` is reset. -/
def releaseFetch (s : EngineState) (pf : PendingFetch) : EngineState :=
  let s1 := { s with inFlight := assocErase s.inFlight pf.cacheKey,
                     pending := removePending s.pending pf.id }
  match assocLookup s1.instances pf.owner with
  | none => s1
  | some oi =>
    let oi1 := if oi.lastFetchKey = some pf.cacheKey then { oi with lastFetchKey := none } else oi
    setInst s1 pf.owner { oi1 with isFetching := false }

/-- A pending fetch resolves: write-through cache at the current instant, the
owner's and every waiter's `setState` with the same options, then the
`finally` block. -/
def settleSuccess (s : EngineState) (fid : Nat) (opts : List FieldOption) : EngineState :=
  match findPending s.pending fid with
  | none => s
  | some pf =>
    let s1 := { s with cache := assocInsert s.cache pf.cacheKey ⟨opts, s.now⟩ }
    let s2 := applyState s1 pf.owner fun i => i.setStateFull opts false none
    let s3 := pf.waiters.foldl
      (fun acc w => applyState acc w fun i => i.setStateFull opts false none) s2
    releaseFetch s3 pf

/-- A pending fetch rejects with a non-abort error. -/
def settleError (s : EngineState) (fid : Nat) (msg : String) : EngineState :=
  match findPending s.pending fid with
  | none => s
  | some pf => releaseFetch (applyState s pf.owner fun i => i.setErrorState msg) pf

/-- A pending fetch rejects with an `AbortError` (only an aborted fetch can):
the owner's catch returns early, so only the `finally` block takes effect. -/
def settleAbort (s : EngineState) (fid : Nat) : EngineState :=
  match findPending s.pending fid with
  | none => s
  | some pf => if pf.aborted then releaseFetch s pf else s

/-- Source `onSearch`: store the query, clear any pending debounce timer and
arm a new one `debounceMs` from now carrying this query. -/
def onSearch (s : EngineState) (instId : Nat) (query : String) : EngineState :=
  match assocLookup s.instances instId with
  | none => s
  | some inst =>
    setInst s instId { inst with searchQueryRef := query,
                                 debounceTimer := some (query, s.now + inst.debounceCfg.getD DEFAULT_DEBOUNCE_MS) }

/-- The debounce timer callback: before the expiry instant nothing happens;
at or after it, the timer is consumed and `fetchData` runs with the stored
query. -/
def fireTimer (s : EngineState) (instId : Nat) : EngineState :=
  match assocLookup s.instances instId with
  | none => s
  | some inst =>
    match inst.debounceTimer with
    | none => s
    | some (q, expiry) =>
      if expiry ≤ s.now then
        fetchData (setInst s instId { inst with debounceTimer := none }) instId (some q)
      else s

def advanceTo (s : EngineState) (t : Nat) : EngineState := { s with now := max s.now t }

/-- A freshly mounted, enabled hook instance before any fetch. -/
def initInstance (sourceKey depsKey : String) (staleTime debounce : Option Nat) : InstanceState :=
  ⟨sourceKey, depsKey, staleTime, debounce, true, true, [], false, none, none, none, false, "", none⟩

/-- Engine at time zero with empty cache and no in-flight requests. -/
def initEngine (insts : List (Nat × InstanceState)) : EngineState :=
  ⟨0, [], [], [], 0, 0, [], insts⟩

/-- A burst of debounced `search` calls: at each call instant the pending
timer is first given the chance to fire (a no-op before its expiry), then
`onSearch` runs. -/
def runSearchBurst (s : EngineState) (i : Nat) : List (String × Nat) → EngineState
  | [] => s
  | (q, t) :: rest => runSearchBurst (onSearch (fireTimer (advanceTo s t) i) i q) i rest

def lastCall (d : String × Nat) : List (String × Nat) → String × Nat
  | [] => d
  | x :: rest => lastCall x rest

/-- Burst timing: call instants are non-decreasing and each successive call
comes strictly within `db` of the previous one. -/
def burstSpaced (db : Nat) : (String × Nat) → List (String × Nat) → Prop
  | _, [] => True
  | (_, t), (q', t') :: rest => t ≤ t' ∧ t' < t + db ∧ burstSpaced db (q', t') rest

/-- The engine state after a quiescent burst: only the clock and instance 0's
`searchQueryRef`/timer differ from the initial state. -/
def burstState (i0 : InstanceState) (q : String) (t : Nat) : EngineState :=
  ⟨t, [], [], [], 0, 0, [],
    [(0, { i0 with searchQueryRef := q,
                   debounceTimer := some (q, t + i0.debounceCfg.getD DEFAULT_DEBOUNCE_MS) })]⟩

/-! ### Concrete fixtures used by witnesses and counterexamples -/

/-- A bare field core with the given name and type and every optional
property absent. -/
def mkCore (n t : String) : FieldCore :=
  ⟨n, t, none, none, none, none, none, none, none, none⟩

def textField (n : String) : FieldDefinition := .mk (mkCore n "text") [] []

def sampleArrayField : FieldDefinition :=
  .mk { (mkCore "tags" "array") with itemType := some "text", minItems := some 1, maxItems := some 3 } [] []

def qtyItemField : FieldDefinition :=
  .mk { (mkCore "qty" "number") with defaultValue := some (.num 1) } [] []

def noteItemField : FieldDefinition := .mk (mkCore "note" "text") [] []

def objItemArrayField : FieldDefinition :=
  .mk { (mkCore "rows" "array") with itemType := some "object" } []
    [qtyItemField, noteItemField]

def numItemArrayField : FieldDefinition :=
  .mk { (mkCore "nums" "array") with itemType := some "number" } [] []

def selectNoOptionsField : FieldDefinition := .mk (mkCore "x" "select") [] []

def badSelectSchema : AutoFormSchema := ⟨[selectNoOptionsField]⟩

def dupChildObjectSchema : AutoFormSchema :=
  ⟨[.mk (mkCore "o" "object") [textField "a", textField "a"] []]⟩

def rootDupSchema : AutoFormSchema := ⟨[textField "x", textField "x"]⟩

def dfltA : FieldDefinition :=
  .mk { (mkCore "a" "text") with defaultValue := some (.str "x") } [] []

def dfltTags : FieldDefinition :=
  .mk { (mkCore "tags" "array") with itemType := some "text" } [] []

def dfltOk : FieldDefinition := .mk (mkCore "ok" "checkbox") [] []

def dfltPrefs : FieldDefinition :=
  .mk (mkCore "prefs" "object")
    [.mk { (mkCore "mode" "text") with defaultValue := some (.str "dark") } [] []] []

def dfltMeta : FieldDefinition := .mk (mkCore "meta" "object") [textField "note"] []

def dfltT : FieldDefinition := textField "t"

def sampleDefaultsSchema : AutoFormSchema :=
  ⟨[dfltA, dfltTags, dfltOk, dfltPrefs, dfltMeta, dfltT]⟩

/-- One instance of source `"src"` (default staleTime 30000) facing a cache
entry whose age is exactly the stale time: entry written at instant 0,
clock now at 30000. -/
def staleBoundaryState : EngineState :=
  { initEngine [(0, initInstance "src" "" none none)] with
      now := 30000, cache := [("src::", ⟨["cached"], 0⟩)] }

/-- The same instance facing a strictly fresh entry (age 50). -/
def freshCacheState : EngineState :=
  { initEngine [(0, initInstance "src" "" none none)] with
      now := 100, cache := [("src::", ⟨["cached"], 50⟩)] }

theorem strictEq_undef_iff (v : Value) : v.strictEq .undef = true ↔ v = .undef := by
  cases v <;> simp [Value.strictEq]

theorem strictEq_null_iff (v : Value) : v.strictEq .null = true ↔ v = .null := by
  cases v <;> simp [Value.strictEq]

theorem strictEq_str_iff (v : Value) (s : String) :
    v.strictEq (.str s) = true ↔ v = .str s := by
  cases v <;> simp [Value.strictEq]

theorem numCmp_not_num {f : Int → Int → Bool} {a b : Value}
    (h : (¬ ∃ n : Int, a = .num n) ∨ (¬ ∃ n : Int, b = .num n)) :
    numCmp f a b = false := by
  cases a <;> cases b <;> simp [numCmp]
  rcases h with h | h
  · exact absurd ⟨_, rfl⟩ h
  · exact absurd ⟨_, rfl⟩ h

/-- C5: condition evaluation semantics. For operator `in` with an array
value, `evaluate` is true iff the watched field's value is a strict-equality
member of that array; `exists` is false exactly on `undefined`, `null`, and
the empty string; the four numeric comparisons are false whenever either side
is not a number; and a field with no condition always evaluates as
visible. -/
theorem condition_evaluation_semantics :
    (∀ (c : ConditionConfig) (values : Value) (xs : List Value),
        c.operator = "in" → c.value = .arr xs →
        (evaluateCondition (some c) values = true ↔
          ∃ e ∈ xs, e.strictEq (getNestedValue values c.whenPath) = true))
    ∧ (∀ (c : ConditionConfig) (values : Value),
        c.operator = "exists" →
        (evaluateCondition (some c) values = false ↔
          (getNestedValue values c.whenPath = .undef ∨
           getNestedValue values c.whenPath = .null ∨
           getNestedValue values c.whenPath = .str "")))
    ∧ (∀ (c : ConditionConfig) (values : Value),
        (c.operator = "gt" ∨ c.operator = "gte" ∨ c.operator = "lt" ∨
          c.operator = "lte") →
        ((¬ ∃ n : Int, getNestedValue values c.whenPath = .num n) ∨
          (¬ ∃ n : Int, c.value = .num n)) →
        evaluateCondition (some c) values = false)
    ∧ (∀ values : Value, evaluateCondition none values = true) := by
  refine ⟨?_, ?_, ?_, ?_⟩
  · intro c values xs hop hval
    simp only [evaluateCondition, hop, hval, jsIncludes, List.any_eq_true]
  · intro c values hop
    simp only [evaluateCondition, hop, Bool.and_eq_false_iff, Bool.not_eq_false',
      strictEq_undef_iff, strictEq_null_iff, strictEq_str_iff]
    tauto
  · intro c values hop hnotnum
    rcases hop with h | h | h | h <;>
      simp only [evaluateCondition, h] <;> exact numCmp_not_num hnotnum
  · intro values
    rfl

/-- Witness for C5 at concrete inputs: `in` over `["x","y"]` with watched
value `"x"`; `exists` over an empty string; `gt` against a non-number; and
the absent condition. -/
theorem condition_evaluation_semantics_witness :
    evaluateCondition (some ⟨"f", "in", .arr [.str "x", .str "y"]⟩)
        (.obj [("f", .str "x")]) = true
    ∧ evaluateCondition (some ⟨"f", "exists", .undef⟩)
        (.obj [("f", .str "")]) = false
    ∧ evaluateCondition (some ⟨"f", "gt", .num 3⟩)
        (.obj [("f", .str "hi")]) = false
    ∧ evaluateCondition none (.obj []) = true := by
  have h := condition_evaluation_semantics
  refine ⟨?_, ?_, ?_, h.2.2.2 (.obj [])⟩
  · exact (h.1 ⟨"f", "in", .arr [.str "x", .str "y"]⟩ (.obj [("f", .str "x")])
      [.str "x", .str "y"] rfl rfl).2 ⟨.str "x", by simp, by decide⟩
  · exact (h.2.1 ⟨"f", "exists", .undef⟩ (.obj [("f", .str "")]) rfl).2
      (Or.inr (Or.inr rfl))
  · exact h.2.2.1 ⟨"f", "gt", .num 3⟩ (.obj [("f", .str "hi")])
      (Or.inl rfl) (Or.inl (by rintro ⟨n, hn⟩; exact Value.noConfusion hn))

/-! ### Association-list lemmas -/

theorem assocLookup_insert_self {κ α : Type} [DecidableEq κ]
    (l : List (κ × α)) (k : κ) (v : α) :
    assocLookup (assocInsert l k v) k = some v := by
  induction l with
  | nil => simp [assocInsert, assocLookup]
  | cons p rest ih =>
    obtain ⟨k', v'⟩ := p
    by_cases h : k' = k <;> simp [assocInsert, assocLookup, h, ih]

theorem assocLookup_insert_ne {κ α : Type} [DecidableEq κ]
    {l : List (κ × α)} {k k' : κ} (v : α) (h : k' ≠ k) :
    assocLookup (assocInsert l k v) k' = assocLookup l k' := by
  induction l with
  | nil => simp [assocInsert, assocLookup, Ne.symm h]
  | cons p rest ih =>
    obtain ⟨k0, v0⟩ := p
    by_cases h0 : k0 = k
    · subst h0
      simp [assocInsert, assocLookup, Ne.symm h]
    · simp [assocInsert, assocLookup, h0, ih]

/-! ### C6: array bounds are soft no-ops -/

/-- C6: for an array field with `maxItems` defined, `append` at or above the
bound leaves the item list unchanged, and with `minItems` defined, `remove`
at or below the bound leaves the list unchanged; neither surfaces any error
(the handlers have no error channel at all). -/
theorem array_bounds_soft_noop :
    (∀ (f : FieldDefinition) (items : List Value) (v : Option Value) (m : Nat),
        f.core.maxItems = some m → m ≤ items.length →
        handleAppend f items v = items)
    ∧ (∀ (f : FieldDefinition) (items : List Value) (i m : Nat),
        f.core.minItems = some m → items.length ≤ m →
        handleRemove f items i = items) := by
  constructor
  · rintro ⟨c, fs, ifs⟩ items v m hmax hlen
    simp only [FieldDefinition.core] at hmax
    simp [handleAppend, maxReached, hmax, hlen]
  · rintro ⟨c, fs, ifs⟩ items i m hmin hlen
    simp only [FieldDefinition.core] at hmin
    simp [handleRemove, minReached, hmin, hlen]

/-- Witness for C6: with `minItems = 1, maxItems = 3`, appending at 3 items
keeps 3 items and removing at 1 item keeps 1 item. -/
theorem array_bounds_soft_noop_witness :
    handleAppend sampleArrayField [.str "a", .str "b", .str "c"] none =
      [.str "a", .str "b", .str "c"]
    ∧ handleRemove sampleArrayField [.str "a"] 0 = [.str "a"] :=
  ⟨array_bounds_soft_noop.1 sampleArrayField _ none 3 rfl (by decide),
   array_bounds_soft_noop.2 sampleArrayField _ 0 1 rfl (by decide)⟩

/-! ### C7: append default synthesis -/

theorem defaultItemFrom_lookup_notMem {ifs : List FieldDefinition} :
    ∀ (acc : List (String × Value)) (k : String),
      k ∉ ifs.map FieldDefinition.name →
      assocLookup (defaultItemFrom ifs acc) k = assocLookup acc k := by
  induction ifs with
  | nil => intro acc k _; rfl
  | cons g rest ih =>
    obtain ⟨c, cfs, cifs⟩ := g
    intro acc k h
    simp only [List.map_cons, List.mem_cons, not_or, FieldDefinition.name,
      FieldDefinition.core] at h
    rw [defaultItemFrom, ih _ _ h.2]
    cases hdv : c.defaultValue
    · rfl
    · exact assocLookup_insert_ne _ h.1

theorem defaultItemFrom_lookup_mem {ifs : List FieldDefinition} :
    ∀ (acc : List (String × Value)),
      (ifs.map FieldDefinition.name).Nodup →
      ∀ g ∈ ifs,
        assocLookup (defaultItemFrom ifs acc) g.name =
          (match g.core.defaultValue with
           | some v => some v
           | none => assocLookup acc g.name) := by
  induction ifs with
  | nil => intro acc _ g hg; cases hg
  | cons g0 rest ih =>
    obtain ⟨c, cfs, cifs⟩ := g0
    intro acc hnd g hg
    simp only [List.map_cons, FieldDefinition.name, FieldDefinition.core,
      List.nodup_cons] at hnd
    rw [defaultItemFrom]
    rcases List.mem_cons.mp hg with rfl | hmem
    · simp only [FieldDefinition.name, FieldDefinition.core]
      rw [defaultItemFrom_lookup_notMem _ _ hnd.1]
      cases hdv : c.defaultValue
      · simp [hdv]
      · simp [hdv, assocLookup_insert_self]
    · have hne : g.name ≠ c.name := by
        intro hEq
        exact hnd.1 (hEq ▸ List.mem_map.mpr ⟨g, hmem, rfl⟩)
      rw [ih _ hnd.2 g hmem]
      cases hdvg : g.core.defaultValue
      · cases hdv : c.defaultValue
        · simp
        · simp [assocLookup_insert_ne _ hne]
      · rfl

/-- C7: appending with no explicit value to an array of object items
synthesizes exactly the item fields that declare a `defaultValue` (the rest
are omitted from the object, not null-filled); appending to a primitive
array uses the type-appropriate zero value: `0` for number, `false` for
checkbox/switch, the empty array for multiselect, the empty string for any
other item type. -/
theorem append_default_synthesis :
    (∀ (c : FieldCore) (fs ifs : List FieldDefinition) (items : List Value),
        maxReached c.maxItems items.length = false →
        c.itemType = some "object" → ifs ≠ [] →
        handleAppend (.mk c fs ifs) items none =
          items ++ [.obj (defaultItemFrom ifs [])])
    ∧ (∀ (ifs : List FieldDefinition),
        (ifs.map FieldDefinition.name).Nodup →
        ∀ g ∈ ifs,
          assocLookup (defaultItemFrom ifs []) g.name = g.core.defaultValue)
    ∧ (∀ (ifs : List FieldDefinition) (k : String),
        k ∉ ifs.map FieldDefinition.name →
        assocLookup (defaultItemFrom ifs []) k = none)
    ∧ (∀ (c : FieldCore) (fs ifs : List FieldDefinition) (items : List Value),
        maxReached c.maxItems items.length = false →
        (c.itemType ≠ some "object" ∨ ifs = []) →
        handleAppend (.mk c fs ifs) items none =
          items ++ [getDefaultForType c.itemType])
    ∧ (getDefaultForType (some "number") = .num 0
        ∧ getDefaultForType (some "checkbox") = .bool false
        ∧ getDefaultForType (some "switch") = .bool false
        ∧ getDefaultForType (some "multiselect") = .arr []
        ∧ ∀ t : Option String,
            t ≠ some "number" → t ≠ some "checkbox" → t ≠ some "switch" →
            t ≠ some "multiselect" → getDefaultForType t = .str "") := by
  refine ⟨?_, ?_, ?_, ?_, rfl, rfl, rfl, rfl, ?_⟩
  · intro c fs ifs items hmax hit hifs
    cases ifs with
    | nil => exact absurd rfl hifs
    | cons g gs => simp [handleAppend, hmax, hit]
  · intro ifs hnd g hg
    rw [defaultItemFrom_lookup_mem _ hnd g hg]
    cases g.core.defaultValue <;> rfl
  · intro ifs k hk
    rw [defaultItemFrom_lookup_notMem _ _ hk]
    rfl
  · intro c fs ifs items hmax hdisj
    rcases hdisj with hne | rfl
    · simp [handleAppend, hmax, hne]
    · simp [handleAppend, hmax]
  · intro t h1 h2 h3 h4
    unfold getDefaultForType
    split
    · exact absurd rfl (by assumption)
    · exact absurd rfl (by assumption)
    · exact absurd rfl (by assumption)
    · exact absurd rfl (by assumption)
    · rfl

/-- Witness for C7: object items synthesize `{qty: 1}` (the no-default field
`note` is omitted); a number-item array appends `0`. -/
theorem append_default_synthesis_witness :
    handleAppend objItemArrayField [] none =
      [.obj (defaultItemFrom [qtyItemField, noteItemField] [])]
    ∧ assocLookup (defaultItemFrom [qtyItemField, noteItemField] []) "qty" =
        some (.num 1)
    ∧ assocLookup (defaultItemFrom [qtyItemField, noteItemField] []) "note" = none
    ∧ handleAppend numItemArrayField [] none = [.num 0]
    ∧ getDefaultForType none = .str "" := by
  have h := append_default_synthesis
  refine ⟨?_, ?_, ?_, ?_, ?_⟩
  · exact h.1 _ [] [qtyItemField, noteItemField] [] rfl rfl (by simp)
  · exact (h.2.1 [qtyItemField, noteItemField] (by decide) qtyItemField
      (by simp)).trans rfl
  · exact (h.2.1 [qtyItemField, noteItemField] (by decide) noteItemField
      (by simp)).trans rfl
  · exact h.2.2.2.1 _ [] [] [] rfl (Or.inr rfl)
  · exact h.2.2.2.2.2.2.2.2 none (by simp) (by simp) (by simp) (by simp)

/-! ### Except helpers for the parser proofs -/

theorem except_bind_ok {ε α β : Type} (a : α) (f : α → Except ε β) :
    (Except.ok a >>= f) = f a := rfl

theorem except_bind_error {ε α β : Type} (e : ε) (f : α → Except ε β) :
    ((Except.error e : Except ε α) >>= f) = Except.error e := rfl

theorem except_throw {ε α : Type} (e : ε) :
    (throw e : Except ε α) = Except.error e := rfl

theorem validateFieldList_error_of_mem :
    ∀ {fs : List FieldDefinition} {f : FieldDefinition} {path : String},
      f ∈ fs → (∃ e, validateField f path = .error e) →
      ∃ e, validateFieldList fs path = .error e := by
  intro fs
  induction fs with
  | nil => intro f path h _; cases h
  | cons g rest ih =>
    intro f path hmem he
    obtain ⟨e, hval⟩ := he
    rcases List.mem_cons.mp hmem with rfl | hmem'
    · exact ⟨e, by simp [validateFieldList, hval, except_bind_error]⟩
    · cases hv : validateField g path with
      | error e2 => exact ⟨e2, by simp [validateFieldList, hv, except_bind_error]⟩
      | ok u =>
        obtain ⟨e3, he3⟩ := ih hmem' ⟨e, hval⟩
        exact ⟨e3, by simp [validateFieldList, hv, he3, except_bind_ok]⟩

/-! ### C8: option-less choice fields are rejected -/

/-- C8: a field of type select/multiselect/radio with neither a static
`options` array nor a `dataSourceKey` makes `validateField` throw a
schema-validation error whose path qualifies the field's name, and
`parseSchema` of any schema containing such a field at the root fails, so
form construction cannot proceed. -/
theorem optionless_choice_rejected :
    (∀ (c : FieldCore) (fs ifs : List FieldDefinition) (path : String),
        (c.type = "select" ∨ c.type = "multiselect" ∨ c.type = "radio") →
        c.name ≠ "" → c.options = none → c.dataSourceKey = none →
        validateField (.mk c fs ifs) path =
          .error ⟨"Field type \"" ++ c.type ++
            "\" must have either \"options\" array or \"dataSourceKey\"",
            path ++ "." ++ c.name⟩)
    ∧ (∀ (schema : AutoFormSchema) (c : FieldCore) (fs ifs : List FieldDefinition),
        (c.type = "select" ∨ c.type = "multiselect" ∨ c.type = "radio") →
        c.name ≠ "" → c.options = none → c.dataSourceKey = none →
        FieldDefinition.mk c fs ifs ∈ schema.fields →
        ∃ e, parseSchema schema = .error e) := by
  have hmain : ∀ (c : FieldCore) (fs ifs : List FieldDefinition) (path : String),
      (c.type = "select" ∨ c.type = "multiselect" ∨ c.type = "radio") →
      c.name ≠ "" → c.options = none → c.dataSourceKey = none →
      validateField (.mk c fs ifs) path =
        .error ⟨"Field type \"" ++ c.type ++
          "\" must have either \"options\" array or \"dataSourceKey\"",
          path ++ "." ++ c.name⟩ := by
    intro c fs ifs path htype hname hopt hdsk
    rcases htype with h | h | h <;>
      simp [validateField, h, hname, hopt, hdsk, jsFalsyOptStr,
        VALID_FIELD_TYPES, except_bind_ok, except_bind_error, except_throw]
  refine ⟨hmain, ?_⟩
  intro schema c fs ifs htype hname hopt hdsk hmem
  have hempty : schema.fields.isEmpty = false := by
    cases hfs : schema.fields with
    | nil => rw [hfs] at hmem; cases hmem
    | cons a l => rfl
  have hlist := validateFieldList_error_of_mem hmem
    ⟨_, hmain c fs ifs "root" htype hname hopt hdsk⟩
  obtain ⟨e, he⟩ := hlist
  exact ⟨e, by simp [parseSchema, hempty, he, except_bind_error]⟩

/-- Witness for C8: the spec's own example `{name := "x", type := "select"}`
is rejected with path `"root.x"`, and a schema containing it fails to
parse. -/
theorem optionless_choice_rejected_witness :
    validateField selectNoOptionsField "root" =
      .error ⟨"Field type \"select\" must have either \"options\" array or \"dataSourceKey\"",
        "root.x"⟩
    ∧ ∃ e, parseSchema badSelectSchema = .error e := by
  constructor
  · exact optionless_choice_rejected.1 (mkCore "x" "select") [] [] "root"
      (Or.inl rfl) (by decide) rfl rfl
  · exact optionless_choice_rejected.2 badSelectSchema (mkCore "x" "select") [] []
      (Or.inl rfl) (by decide) rfl rfl (by simp [badSelectSchema, selectNoOptionsField])

/-! ### C9: sibling name uniqueness -/

theorem checkRootDuplicates_error :
    ∀ (fs : List FieldDefinition) (seen : List String),
      (¬ (fs.map FieldDefinition.name).Nodup ∨ ∃ f ∈ fs, f.name ∈ seen) →
      ∃ e, checkRootDuplicates seen fs = .error e := by
  intro fs
  induction fs with
  | nil =>
    intro seen h
    rcases h with h | ⟨f, hf, _⟩
    · exact absurd List.nodup_nil h
    · cases hf
  | cons g rest ih =>
    intro seen h
    by_cases hg : g.name ∈ seen
    · exact ⟨⟨"Duplicate field name \"" ++ g.name ++ "\" at root level", "root"⟩,
        by simp [checkRootDuplicates, hg]⟩
    · have h' : ¬ (rest.map FieldDefinition.name).Nodup ∨
          ∃ f ∈ rest, f.name ∈ g.name :: seen := by
        rcases h with h | ⟨f, hf, hfseen⟩
        · rw [List.map_cons, List.nodup_cons] at h
          push_neg at h
          by_cases hmm : g.name ∈ rest.map FieldDefinition.name
          · obtain ⟨f, hf, hfn⟩ := List.mem_map.mp hmm
            exact Or.inr ⟨f, hf, by rw [hfn]; exact List.mem_cons_self _ _⟩
          · exact Or.inl (h hmm)
        · rcases List.mem_cons.mp hf with rfl | hf'
          · exact absurd hfseen hg
          · exact Or.inr ⟨f, hf', List.mem_cons_of_mem _ hfseen⟩
      obtain ⟨e, he⟩ := ih (g.name :: seen) h'
      exact ⟨e, by simp [checkRootDuplicates, hg, he]⟩

/-- C9 counterexample: a schema whose object field `o` has two children both
named `"a"` — sibling duplicates below the root — is accepted by
`parseSchema` (the duplicate-name check runs over root-level names only), so
the claim that any nested sibling duplicate raises a schema-validation error
is false on this input. -/
theorem nested_duplicate_accepted :
    (dupChildObjectSchema.fields.map (fun f => f.fields.map FieldDefinition.name)
      = [["a", "a"]])
    ∧ ∃ p, parseSchema dupChildObjectSchema = .ok p :=
  ⟨rfl, ⟨_, rfl⟩⟩

/-- C9 amended: duplicate sibling names are rejected at construction only at
the root level — any schema whose root field list carries a repeated name
fails `parseSchema` — while duplicates among an object field's children or an
array field's `itemFields` are not checked (see the counterexample). -/
theorem root_duplicate_rejected (schema : AutoFormSchema)
    (hdup : ¬ (schema.fields.map FieldDefinition.name).Nodup) :
    ∃ e, parseSchema schema = .error e := by
  have hne : schema.fields ≠ [] := by
    intro h
    rw [h] at hdup
    exact hdup List.nodup_nil
  have hempty : schema.fields.isEmpty = false := by
    cases hfs : schema.fields with
    | nil => exact absurd hfs hne
    | cons a l => rfl
  cases hv : validateFieldList schema.fields "root" with
  | error e => exact ⟨e, by simp [parseSchema, hempty, hv, except_bind_error]⟩
  | ok u =>
    obtain ⟨e, he⟩ := checkRootDuplicates_error schema.fields [] (Or.inl hdup)
    exact ⟨e, by simp [parseSchema, hempty, hv, he, except_bind_ok, except_bind_error]⟩

/-- Witness for the amended C9: two root fields both named `"x"` make
`parseSchema` fail. -/
theorem root_duplicate_rejected_witness :
    ∃ e, parseSchema rootDupSchema = .error e :=
  root_duplicate_rejected rootDupSchema (by decide)

/-! ### C10: initial-value synthesis -/

theorem processFieldStep_lookup_ne {c : FieldCore} {fs : List FieldDefinition}
    {target : List (String × Value)} {k : String} (h : k ≠ c.name) :
    assocLookup (processFieldStep c fs target) k = assocLookup target k := by
  rw [processFieldStep]
  cases hdv : c.defaultValue with
  | some v => exact assocLookup_insert_ne _ h
  | none =>
    by_cases h1 : c.type = "object"
    · cases hie : (processFields fs []).isEmpty <;>
        simp [h1, hie, assocLookup_insert_ne _ h]
    · by_cases h2 : c.type = "array"
      · simp [h1, h2, assocLookup_insert_ne _ h]
      · by_cases h3 : c.type = "checkbox" ∨ c.type = "switch"
        · simp [h1, h2, h3, assocLookup_insert_ne _ h]
        · simp [h1, h2, h3]

theorem processFieldStep_lookup_self (c : FieldCore) (fs ifs : List FieldDefinition)
    (target : List (String × Value)) :
    assocLookup (processFieldStep c fs target) c.name =
      (match defaultValueSpec (.mk c fs ifs) with
       | some v => some v
       | none => assocLookup target c.name) := by
  rw [processFieldStep, defaultValueSpec]
  cases hdv : c.defaultValue with
  | some v => simp [assocLookup_insert_self]
  | none =>
    by_cases h1 : c.type = "object"
    · cases hie : (processFields fs []).isEmpty <;>
        simp [h1, hie, assocLookup_insert_self]
    · by_cases h2 : c.type = "array"
      · simp [h1, h2, assocLookup_insert_self]
      · by_cases h3 : c.type = "checkbox" ∨ c.type = "switch"
        · simp [h1, h2, h3, assocLookup_insert_self]
        · simp [h1, h2, h3]

theorem processFields_lookup_notMem {fields : List FieldDefinition} :
    ∀ (target : List (String × Value)) (k : String),
      k ∉ fields.map FieldDefinition.name →
      assocLookup (processFields fields target) k = assocLookup target k := by
  induction fields with
  | nil => intro t k _; rw [processFields]
  | cons f rest ih =>
    obtain ⟨c, cfs, cifs⟩ := f
    intro t k h
    simp only [List.map_cons, List.mem_cons, not_or, FieldDefinition.name,
      FieldDefinition.core] at h
    rw [processFields, ih _ _ h.2, processFieldStep_lookup_ne h.1]

theorem processFields_lookup_mem {fields : List FieldDefinition} :
    ∀ (target : List (String × Value)),
      (fields.map FieldDefinition.name).Nodup →
      ∀ f ∈ fields,
        assocLookup (processFields fields target) f.name =
          (match defaultValueSpec f with
           | some v => some v
           | none => assocLookup target f.name) := by
  induction fields with
  | nil => intro t _ f hf; cases hf
  | cons g rest ih =>
    obtain ⟨c, cfs, cifs⟩ := g
    intro t hnd f hf
    simp only [List.map_cons, FieldDefinition.name, FieldDefinition.core,
      List.nodup_cons] at hnd
    rw [processFields]
    rcases List.mem_cons.mp hf with rfl | hmem
    · simp only [FieldDefinition.name, FieldDefinition.core]
      rw [processFields_lookup_notMem _ _ hnd.1]
      exact processFieldStep_lookup_self c cfs cifs t
    · have hne : f.name ≠ c.name := by
        intro hEq
        exact hnd.1 (hEq ▸ List.mem_map.mpr ⟨f, hmem, rfl⟩)
      rw [ih _ hnd.2 f hmem]
      cases hspec : defaultValueSpec f
      · simp [processFieldStep_lookup_ne hne]
      · rfl

/-- C10: for a schema with pairwise-distinct sibling names,
`getDefaultValues` maps each root field with an explicit `defaultValue` to
that value; each array field without one to the empty array; each
checkbox/switch field without one to `false`; an object field without one to
its synthesized child-defaults object exactly when that object is non-empty;
and any other field without a `defaultValue` is absent from the result
(`defaultValueSpec` states the per-field default, with `processFields`
recursing identically at each nesting level). -/
theorem default_values_synthesis (schema : AutoFormSchema)
    (hnd : (schema.fields.map FieldDefinition.name).Nodup) :
    ∀ f ∈ schema.fields,
      assocLookup (getDefaultValues schema) f.name = defaultValueSpec f := by
  intro f hf
  rw [getDefaultValues, processFields_lookup_mem _ hnd f hf]
  cases defaultValueSpec f <;> rfl

/-- Witness for C10 on a concrete schema: explicit default kept, array
defaults to `[]`, checkbox to `false`, an object with a defaulted child
appears as a nested object, an object with no defaulted descendants is
absent, and a plain text field is absent. -/
theorem default_values_synthesis_witness :
    assocLookup (getDefaultValues sampleDefaultsSchema) "a" = some (.str "x")
    ∧ assocLookup (getDefaultValues sampleDefaultsSchema) "tags" = some (.arr [])
    ∧ assocLookup (getDefaultValues sampleDefaultsSchema) "ok" = some (.bool false)
    ∧ assocLookup (getDefaultValues sampleDefaultsSchema) "prefs" =
        some (.obj [("mode", .str "dark")])
    ∧ assocLookup (getDefaultValues sampleDefaultsSchema) "meta" = none
    ∧ assocLookup (getDefaultValues sampleDefaultsSchema) "t" = none := by
  have h := default_values_synthesis sampleDefaultsSchema (by decide)
  refine ⟨?_, ?_, ?_, ?_, ?_, ?_⟩
  · exact (h dfltA (by simp [sampleDefaultsSchema])).trans rfl
  · exact (h dfltTags (by simp [sampleDefaultsSchema])).trans rfl
  · exact (h dfltOk (by simp [sampleDefaultsSchema])).trans rfl
  · exact (h dfltPrefs (by simp [sampleDefaultsSchema])).trans
      (by simp [defaultValueSpec, dfltPrefs, mkCore, processFields,
        processFieldStep, assocInsert])
  · exact (h dfltMeta (by simp [sampleDefaultsSchema])).trans
      (by simp [defaultValueSpec, dfltMeta, mkCore, processFields,
        processFieldStep, textField])
  · exact (h dfltT (by simp [sampleDefaultsSchema])).trans rfl

/-! ### C1: in-flight de-duplication and lifecycle -/

/-- C1: from a quiet engine, a first resolution invokes `config.fetch`
exactly once and registers the pending promise in the in-flight map under the
derived cache key before anything can settle; a second resolution with
identical `FetchParams` (same derived key) while the first is pending adds no
fetch invocation and attaches as a waiter; when the fetch settles
successfully both instances observe the same options with loading cleared,
and the in-flight entry is deleted; the entry is likewise deleted when the
fetch fails, and when it is cancelled (aborted by a newer fetch for a
different key) and rejects with its abort error. -/
theorem dedup_inflight_lifecycle (k d : String) (st db : Option Nat)
    (q : Option String) (opts : List FieldOption) (msg : String) (q2 : String)
    (hkeys : generateCacheKey k d (jsOrEmpty q) ≠ generateCacheKey k d (jsOrEmpty (some q2))) :
    let key := generateCacheKey k d (jsOrEmpty q)
    let s0 := initEngine [(0, initInstance k d st db), (1, initInstance k d st db)]
    let s1 := fetchData s0 0 q
    let s2 := fetchData s1 1 q
    (s1.fetchCount = 1 ∧ assocLookup s1.inFlight key = some 0
      ∧ findPending s1.pending 0 = some ⟨0, key, 0, false, []⟩)
    ∧ (s2.fetchCount = 1 ∧ findPending s2.pending 0 = some ⟨0, key, 0, false, [1]⟩)
    ∧ (let s3 := settleSuccess s2 0 opts
       (assocLookup s3.instances 0).map InstanceState.options = some opts
       ∧ (assocLookup s3.instances 1).map InstanceState.options = some opts
       ∧ (assocLookup s3.instances 0).map InstanceState.isLoading = some false
       ∧ (assocLookup s3.instances 1).map InstanceState.isLoading = some false
       ∧ assocLookup s3.inFlight key = none ∧ s3.pending = [])
    ∧ (let s3e := settleError s2 0 msg
       assocLookup s3e.inFlight key = none ∧ s3e.pending = [])
    ∧ (let s2c := fetchData s2 0 (some q2)
       let s3c := settleAbort s2c 0
       (findPending s2c.pending 0).map PendingFetch.aborted = some true
       ∧ assocLookup s3c.inFlight key = none ∧ findPending s3c.pending 0 = none) := by
  simp [initEngine, initInstance, fetchData, fetchDataMiss, assocLookup, assocInsert,
    assocErase, setInst, applyState, abortPending, attachWaiter, findPending, removePending,
    settleSuccess, settleError, settleAbort, releaseFetch, InstanceState.setStateFull,
    InstanceState.setLoadingState, InstanceState.setErrorState, hkeys, Ne.symm hkeys,
    List.find?, List.filter, List.foldl, Option.map]

/-- Witness for C1 at concrete inputs (source key `"cities"`, no
dependencies, no search query, a different second query `"x"` for the
cancellation leg). -/
theorem dedup_inflight_lifecycle_witness :
    let key := generateCacheKey "cities" "" (jsOrEmpty none)
    let s0 := initEngine [(0, initInstance "cities" "" none none),
                          (1, initInstance "cities" "" none none)]
    let s1 := fetchData s0 0 none
    let s2 := fetchData s1 1 none
    (s1.fetchCount = 1 ∧ assocLookup s1.inFlight key = some 0
      ∧ findPending s1.pending 0 = some ⟨0, key, 0, false, []⟩)
    ∧ (s2.fetchCount = 1 ∧ findPending s2.pending 0 = some ⟨0, key, 0, false, [1]⟩)
    ∧ (let s3 := settleSuccess s2 0 ["NY"]
       (assocLookup s3.instances 0).map InstanceState.options = some ["NY"]
       ∧ (assocLookup s3.instances 1).map InstanceState.options = some ["NY"]
       ∧ (assocLookup s3.instances 0).map InstanceState.isLoading = some false
       ∧ (assocLookup s3.instances 1).map InstanceState.isLoading = some false
       ∧ assocLookup s3.inFlight key = none ∧ s3.pending = [])
    ∧ (let s3e := settleError s2 0 "boom"
       assocLookup s3e.inFlight key = none ∧ s3e.pending = [])
    ∧ (let s2c := fetchData s2 0 (some "x")
       let s3c := settleAbort s2c 0
       (findPending s2c.pending 0).map PendingFetch.aborted = some true
       ∧ assocLookup s3c.inFlight key = none ∧ findPending s3c.pending 0 = none) :=
  dedup_inflight_lifecycle "cities" "" none none none ["NY"] "boom" "x" (by decide)

/-! ### C2: cache freshness -/

/-- C2 counterexample: with the default `staleTime` of 30000 ms and a cache
entry whose age is exactly 30000 (`now - timestamp ≤ staleTime` holds, so the
claim demands a synchronous cached return with no fetch and
`isLoading = false`), the code treats the entry as stale: the resolution
invokes `config.fetch` and sets `isLoading = true`. -/
theorem stale_boundary_fetches :
    staleBoundaryState.now - 0 ≤ DEFAULT_STALE_TIME
    ∧ assocLookup staleBoundaryState.cache "src::" = some ⟨["cached"], 0⟩
    ∧ (fetchData staleBoundaryState 0 none).fetchCount = 1
    ∧ (assocLookup (fetchData staleBoundaryState 0 none).instances 0).map
        InstanceState.isLoading = some true :=
  ⟨by decide, by decide, rfl, by decide⟩

/-- C2 amended: an entry is fresh iff `now - timestamp < staleTime`
(strictly; `staleTime` defaults to 30000 ms) — then the cached data is
returned with `isLoading = false` and no fetch — and a fetch is invoked once
`now - timestamp ≥ staleTime`; consequently two resolutions with identical
`FetchParams` strictly within `staleTime` of the cached result trigger
exactly one underlying fetch, and a third at or after `staleTime` triggers a
second. -/
theorem cache_freshness_amended :
    (∀ (s : EngineState) (i : Nat) (inst : InstanceState) (q : Option String) (e : CacheEntry),
        assocLookup s.instances i = some inst → inst.enabled = true → inst.mounted = true →
        assocLookup s.cache (generateCacheKey inst.sourceKey inst.depsKey (jsOrEmpty q)) = some e →
        s.now - e.timestamp < inst.staleTimeCfg.getD DEFAULT_STALE_TIME →
        (fetchData s i q).fetchCount = s.fetchCount
        ∧ assocLookup (fetchData s i q).instances i =
            some { inst with options := e.data, isLoading := false, error := none })
    ∧ (∀ (s : EngineState) (i : Nat) (inst : InstanceState) (q : Option String) (e : CacheEntry),
        assocLookup s.instances i = some inst → inst.enabled = true →
        assocLookup s.cache (generateCacheKey inst.sourceKey inst.depsKey (jsOrEmpty q)) = some e →
        inst.staleTimeCfg.getD DEFAULT_STALE_TIME ≤ s.now - e.timestamp →
        assocLookup s.inFlight (generateCacheKey inst.sourceKey inst.depsKey (jsOrEmpty q)) = none →
        inst.lastFetchKey ≠ some (generateCacheKey inst.sourceKey inst.depsKey (jsOrEmpty q)) →
        (fetchData s i q).fetchCount = s.fetchCount + 1)
    ∧ (∀ (k d : String) (st db : Option Nat) (q : Option String) (opts : List FieldOption)
          (δ1 δ2 : Nat),
        δ1 < st.getD DEFAULT_STALE_TIME →
        st.getD DEFAULT_STALE_TIME ≤ δ1 + δ2 →
        let s0 := initEngine [(0, initInstance k d st db)]
        let s1 := settleSuccess (fetchData s0 0 q) 0 opts
        let s2 := fetchData (advanceTo s1 δ1) 0 q
        let s3 := fetchData (advanceTo s2 (δ1 + δ2)) 0 q
        (fetchData s0 0 q).fetchCount = 1
        ∧ s2.fetchCount = 1
        ∧ (assocLookup s2.instances 0).map InstanceState.options = some opts
        ∧ s3.fetchCount = 2) := by
  refine ⟨?_, ?_, ?_⟩
  · intro s i inst q e hinst hen hm hc hfresh
    have hrun : fetchData s i q = setInst s i (inst.setStateFull e.data false none) := by
      simp [fetchData, hinst, hen, hc, hfresh]
    rw [hrun]
    exact ⟨rfl, by simp [setInst, assocLookup_insert_self, InstanceState.setStateFull, hm]⟩
  · intro s i inst q e hinst hen hc hstale hif hlast
    have hrun : fetchData s i q =
        fetchDataMiss s i inst (generateCacheKey inst.sourceKey inst.depsKey (jsOrEmpty q)) q := by
      simp [fetchData, hinst, hen, hc, Nat.not_lt.mpr hstale]
    rw [hrun]
    simp [fetchDataMiss, hif, hlast]
  · intro k d st db q opts δ1 δ2 h1 h2
    simp [initEngine, initInstance, fetchData, fetchDataMiss, assocLookup, assocInsert,
      assocErase, setInst, applyState, abortPending, attachWaiter, findPending, removePending,
      settleSuccess, releaseFetch, InstanceState.setStateFull, InstanceState.setLoadingState,
      advanceTo, List.find?, List.filter, List.foldl, Option.map, Nat.zero_max,
      Nat.max_eq_right (Nat.le_add_right δ1 δ2), h1, Nat.not_lt.mpr h2]

/-- Witness for the amended C2: a strictly fresh entry (age 50) is served
with no fetch; an entry aged exactly the stale time triggers a fetch; and the
1-2-3 resolution trace at ages 10000 and 35000 yields one then two
fetches. -/
theorem cache_freshness_amended_witness :
    ((fetchData freshCacheState 0 none).fetchCount = 0
      ∧ assocLookup (fetchData freshCacheState 0 none).instances 0 =
          some { initInstance "src" "" none none with
                   options := ["cached"], isLoading := false, error := none })
    ∧ (fetchData staleBoundaryState 0 none).fetchCount = 1
    ∧ (let s0 := initEngine [(0, initInstance "src" "" none none)]
       let s1 := settleSuccess (fetchData s0 0 none) 0 ["v1"]
       let s2 := fetchData (advanceTo s1 10000) 0 none
       let s3 := fetchData (advanceTo s2 (10000 + 25000)) 0 none
       (fetchData s0 0 none).fetchCount = 1
       ∧ s2.fetchCount = 1
       ∧ (assocLookup s2.instances 0).map InstanceState.options = some ["v1"]
       ∧ s3.fetchCount = 2) := by
  refine ⟨?_, ?_, ?_⟩
  · exact cache_freshness_amended.1 freshCacheState 0 (initInstance "src" "" none none)
      none ⟨["cached"], 50⟩ rfl rfl rfl rfl (by decide)
  · exact cache_freshness_amended.2.1 staleBoundaryState 0 (initInstance "src" "" none none)
      none ⟨["cached"], 0⟩ rfl rfl rfl (by decide) rfl (by decide)
  · exact cache_freshness_amended.2.2 "src" "" none none none ["v1"] 10000 25000
      (by decide) (by decide)

/-! ### C3: latest-wins for a single field instance -/

/-- C3 counterexample: fetch A (`searchQuery "a"`) is issued, then fetch B
(`searchQuery "b"`) for the same instance before A resolves; B's result
arrives first, then A — whose underlying fetch ignored the abort signal —
resolves late with its own data. The hook applies A's late result over B's:
the final options are `["A"]`, not `["B"]`, so the claim's "must hold even if
the underlying fetch does not honor the abort signal" is false on this
trace (there is no request-token check in the settle path). -/
theorem late_result_overwrites :
    let s0 := initEngine [(0, initInstance "geo" "" none none)]
    let s1 := fetchData s0 0 (some "a")
    let s2 := fetchData s1 0 (some "b")
    let s3 := settleSuccess s2 1 ["B"]
    let s4 := settleSuccess s3 0 ["A"]
    (findPending s2.pending 0).map PendingFetch.aborted = some true
    ∧ (assocLookup s3.instances 0).map InstanceState.options = some ["B"]
    ∧ (assocLookup s4.instances 0).map InstanceState.options = some ["A"]
    ∧ (["A"] : List FieldOption) ≠ ["B"] :=
  ⟨by decide, by decide, by decide, by decide⟩

/-- C3 amended: the last fetch issued for a field instance wins provided the
superseded fetch honors its abort signal: issuing B aborts A's controller,
and when A then settles as an abort rejection its catch is a no-op, so the
instance's final options remain B's and A's in-flight entry is still
released; when the underlying fetch ignores the signal, A's late result
overwrites B's (see the counterexample). -/
theorem latest_wins_amended (k d : String) (st db : Option Nat) (qa qb : String)
    (optsB : List FieldOption)
    (hne : generateCacheKey k d (jsOrEmpty (some qa)) ≠ generateCacheKey k d (jsOrEmpty (some qb))) :
    let s0 := initEngine [(0, initInstance k d st db)]
    let s1 := fetchData s0 0 (some qa)
    let s2 := fetchData s1 0 (some qb)
    let s3 := settleSuccess s2 1 optsB
    let s4 := settleAbort s3 0
    (findPending s2.pending 0).map PendingFetch.aborted = some true
    ∧ (assocLookup s4.instances 0).map InstanceState.options = some optsB
    ∧ (assocLookup s4.instances 0).map InstanceState.isLoading = some false
    ∧ assocLookup s4.inFlight (generateCacheKey k d (jsOrEmpty (some qa))) = none := by
  simp [initEngine, initInstance, fetchData, fetchDataMiss, assocLookup, assocInsert,
    assocErase, setInst, applyState, abortPending, attachWaiter, findPending, removePending,
    settleSuccess, settleAbort, releaseFetch, InstanceState.setStateFull,
    InstanceState.setLoadingState, hne, Ne.symm hne,
    List.find?, List.filter, List.foldl, Option.map]

/-- Witness for the amended C3 at concrete inputs. -/
theorem latest_wins_amended_witness :
    let s0 := initEngine [(0, initInstance "geo" "" none none)]
    let s1 := fetchData s0 0 (some "a")
    let s2 := fetchData s1 0 (some "b")
    let s3 := settleSuccess s2 1 ["B"]
    let s4 := settleAbort s3 0
    (findPending s2.pending 0).map PendingFetch.aborted = some true
    ∧ (assocLookup s4.instances 0).map InstanceState.options = some ["B"]
    ∧ (assocLookup s4.instances 0).map InstanceState.isLoading = some false
    ∧ assocLookup s4.inFlight (generateCacheKey "geo" "" (jsOrEmpty (some "a"))) = none :=
  latest_wins_amended "geo" "" none none "a" "b" ["B"] (by decide)

/-! ### C4: debounced search -/

theorem runSearchBurst_state (i0 : InstanceState) :
    ∀ (calls : List (String × Nat)) (q : String) (t : Nat),
      burstSpaced (i0.debounceCfg.getD DEFAULT_DEBOUNCE_MS) (q, t) calls →
      runSearchBurst (burstState i0 q t) 0 calls =
        burstState i0 (lastCall (q, t) calls).1 (lastCall (q, t) calls).2 := by
  intro calls
  induction calls with
  | nil => intro q t _; rfl
  | cons c rest ih =>
    obtain ⟨q', t'⟩ := c
    intro q t hsp
    obtain ⟨h1, h2, h3⟩ := hsp
    rw [runSearchBurst]
    have hstep : onSearch (fireTimer (advanceTo (burstState i0 q t) t') 0) 0 q' =
        burstState i0 q' t' := by
      simp [burstState, advanceTo, fireTimer, onSearch, setInst, assocLookup, assocInsert,
        Nat.max_eq_right h1, Nat.not_le.mpr h2]
    rw [hstep, lastCall]
    exact ih q' t' h3

/-- C4: each `search` call replaces the pending debounce timer with a fresh
one carrying its own query; the timer cannot fire before its expiry; and a
burst of calls spaced strictly under `debounceMs` (default 300 ms) followed
by quiescence produces exactly one `config.fetch` invocation, whose
`searchQuery` is the last query of the burst — the fetch log shows no call
for any intermediate query. -/
theorem debounced_search_last_query :
    (∀ (s : EngineState) (i : Nat) (inst : InstanceState) (q : String),
        assocLookup s.instances i = some inst →
        assocLookup (onSearch s i q).instances i =
          some { inst with searchQueryRef := q,
                           debounceTimer := some (q, s.now + inst.debounceCfg.getD DEFAULT_DEBOUNCE_MS) })
    ∧ (∀ (s : EngineState) (i : Nat) (inst : InstanceState) (q : String) (e : Nat),
        assocLookup s.instances i = some inst →
        inst.debounceTimer = some (q, e) → s.now < e →
        fireTimer s i = s)
    ∧ (∀ (k d : String) (st db : Option Nat) (q1 : String) (t1 : Nat)
          (rest : List (String × Nat)),
        burstSpaced (db.getD DEFAULT_DEBOUNCE_MS) (q1, t1) rest →
        (fireTimer (advanceTo (runSearchBurst (initEngine [(0, initInstance k d st db)]) 0
            ((q1, t1) :: rest)) ((lastCall (q1, t1) rest).2 + db.getD DEFAULT_DEBOUNCE_MS)) 0).fetchCount = 1
        ∧ (fireTimer (advanceTo (runSearchBurst (initEngine [(0, initInstance k d st db)]) 0
            ((q1, t1) :: rest)) ((lastCall (q1, t1) rest).2 + db.getD DEFAULT_DEBOUNCE_MS)) 0).fetchLog
          = [(0, generateCacheKey k d (lastCall (q1, t1) rest).1,
              some (lastCall (q1, t1) rest).1)]) := by
  refine ⟨?_, ?_, ?_⟩
  · intro s i inst q hinst
    simp [onSearch, hinst, setInst, assocLookup_insert_self]
  · intro s i inst q e hinst htimer hlt
    simp [fireTimer, hinst, htimer, Nat.not_le.mpr hlt]
  · intro k d st db q1 t1 rest hsp
    have hhead : onSearch (fireTimer (advanceTo (initEngine [(0, initInstance k d st db)]) t1) 0) 0 q1
        = burstState (initInstance k d st db) q1 t1 := by
      simp [initEngine, initInstance, advanceTo, fireTimer, onSearch, setInst, assocLookup,
        assocInsert, burstState, Nat.zero_max]
    have hburst : runSearchBurst (initEngine [(0, initInstance k d st db)]) 0 ((q1, t1) :: rest)
        = burstState (initInstance k d st db) (lastCall (q1, t1) rest).1
            (lastCall (q1, t1) rest).2 := by
      rw [runSearchBurst, hhead]
      exact runSearchBurst_state _ rest q1 t1 hsp
    rw [hburst]
    constructor <;>
      simp [burstState, initInstance, advanceTo, fireTimer, fetchData, fetchDataMiss,
        setInst, assocLookup, assocInsert, jsOrEmpty, abortPending,
        Nat.max_eq_right (Nat.le_add_right _ _)]

/-- Witness for C4: the spec's own burst `search("a")`, `search("ab")`,
`search("abc")` at 0/100/200 ms with the default 300 ms debounce produces one
fetch for `"abc"` only. -/
theorem debounced_search_last_query_witness :
    burstSpaced 300 ("a", 0) [("ab", 100), ("abc", 200)]
    ∧ (fireTimer (advanceTo (runSearchBurst (initEngine [(0, initInstance "cities" "" none none)]) 0
        (("a", 0) :: [("ab", 100), ("abc", 200)])) ((lastCall ("a", 0) [("ab", 100), ("abc", 200)]).2 + 300)) 0).fetchCount = 1
    ∧ (fireTimer (advanceTo (runSearchBurst (initEngine [(0, initInstance "cities" "" none none)]) 0
        (("a", 0) :: [("ab", 100), ("abc", 200)])) ((lastCall ("a", 0) [("ab", 100), ("abc", 200)]).2 + 300)) 0).fetchLog
      = [(0, generateCacheKey "cities" "" "abc", some "abc")] := by
  have hsp : burstSpaced 300 ("a", 0) [("ab", 100), ("abc", 200)] := by
    simp [burstSpaced]
  have h := debounced_search_last_query.2.2 "cities" "" none none "a" 0
    [("ab", 100), ("abc", 200)] hsp
  exact ⟨hsp, h.1, h.2⟩
